import Mathlib

/-!
Shallow embedding of `shell-tunnel.c` (compulab/shell-tunnel): a daemon that
exports an interactive shell over a UNIX-domain socket, and a client that
projects the local terminal onto it.  Pure control flow and descriptor
plumbing are modelled as explicit functions over environments that record
the outcome of every OS call (readiness, read/write results, accept/fork/
openpty success), producing traces of the observable actions the C code
performs.
-/

namespace ShellTunnel

/-! ## Byte Interchange Engine (`byte_interchange`, shell-tunnel.c:301-358)

One loop round = one `select` wakeup.  The environment decides which of the
two read descriptors is ready, whether a `read` call fails this round, and
what each `write` call returns.  `read` of one byte otherwise returns the
next byte of the side's remaining stream, or 0 (end of file) when the
stream is exhausted, exactly as the one-byte reads in the C loop. -/

structure Round where
  ready_a : Bool
  ready_b : Bool
  rderr_a : Bool
  rderr_b : Bool
  wres_a : Int
  wres_b : Int
deriving DecidableEq, Repr

/-- Relay state: `sa`/`sb` the bytes still readable from `in_a`/`in_b`,
`outB`/`outA` the bytes written so far to `out_b`/`out_a`, and `len` the
current value of the C variable `len` (`none` = still uninitialized). -/
structure RState where
  sa : List Nat
  sb : List Nat
  outB : List Nat
  outA : List Nat
  len : Option Int
deriving DecidableEq, Repr

/-- How the relay loop ended: which `break` fired, or `running` when the
modelled rounds were exhausted with the loop still going. -/
inductive Outcome where
  | errReadA
  | eofA
  | errWriteB (w : Int)
  | errReadB
  | eofB
  | errWriteA (w : Int)
  | running
deriving DecidableEq, Repr

/-- The `in_a --> out_b` half of one loop round (shell-tunnel.c:318-335):
if `in_a` is ready, read one byte (error / end-of-file / data) and on data
write it to `out_b`, breaking out of the loop on `len < 0`, `len == 0`, or
a write return `< 1`. -/
def stepA (r : Round) (s : RState) : RState × Option Outcome :=
  if r.ready_a then
    if r.rderr_a then ({ s with len := some (-1) }, some .errReadA)
    else
      match s.sa with
      | [] => ({ s with len := some 0 }, some .eofA)
      | c :: rest =>
        if r.wres_b < 1 then
          ({ s with sa := rest, len := some r.wres_b }, some (.errWriteB r.wres_b))
        else
          ({ s with sa := rest, outB := s.outB ++ [c], len := some r.wres_b }, none)
  else (s, none)

/-- The `in_b --> out_a` half of one loop round (shell-tunnel.c:337-354). -/
def stepB (r : Round) (s : RState) : RState × Option Outcome :=
  if r.ready_b then
    if r.rderr_b then ({ s with len := some (-1) }, some .errReadB)
    else
      match s.sb with
      | [] => ({ s with len := some 0 }, some .eofB)
      | c :: rest =>
        if r.wres_a < 1 then
          ({ s with sb := rest, len := some r.wres_a }, some (.errWriteA r.wres_a))
        else
          ({ s with sb := rest, outA := s.outA ++ [c], len := some r.wres_a }, none)
  else (s, none)

/-- `byte_interchange` (shell-tunnel.c:301-358): run loop rounds until a
`break` fires (any read error, any zero-length read, any short write) or
the modelled rounds run out.  The C function's `return len` value is the
final state's `len` field. -/
def byte_interchange : List Round → RState → RState × Outcome
  | [], s => (s, .running)
  | r :: rest, s =>
    match stepA r s with
    | (s1, some o) => (s1, o)
    | (s1, none) =>
      match stepB r s1 with
      | (s2, some o) => (s2, o)
      | (s2, none) => byte_interchange rest s2

/-- A round on which no read error is injected and both writes succeed. -/
def Round.noErr (r : Round) : Prop :=
  r.rderr_a = false ∧ r.rderr_b = false ∧ 1 ≤ r.wres_a ∧ 1 ≤ r.wres_b

instance (r : Round) : Decidable r.noErr := by
  unfold Round.noErr; infer_instance

/-! ## Terminal raw-mode controller (`setup_console`, shell-tunnel.c:263-284)

`tcflag_t` is a 32-bit unsigned integer; `c_lflag` is modelled as a `Nat`
and the C bit-clear `x &= ~mask` as `x &&& (0xFFFFFFFF ^^^ mask)`.  The
flag constants are the Linux/glibc values used by the program. -/

def ICANON : Nat := 2
def ECHO : Nat := 8

/-- The `CONS_CONFIG` arm of `setup_console` (shell-tunnel.c:270-278): the
new local-mode flags written by `tcsetattr`, computed from the captured
flags as `c_lflag &= ~(ICANON | (!local_echo ? ECHO : 0))`. -/
def setup_console_config (lflag : Nat) (local_echo : Bool) : Nat :=
  lflag &&& (0xFFFFFFFF ^^^ (ICANON ||| (if local_echo then 0 else ECHO)))

/-! ## Client proxy (`client_mode` / `console_proxy`, shell-tunnel.c:231-294)

The observable calls of the client are recorded as a trace.  The
environment fixes whether `socket` and `connect` succeed and the relay
rounds/streams seen by `byte_interchange(STDIN, STDOUT, sockfd, sockfd)`
(side `a` = local terminal, side `b` = channel connection). -/

/-- `shutdown(2)` "how" values. -/
def SHUT_RD : Nat := 0
def SHUT_WR : Nat := 1
def SHUT_RDWR : Nat := 2

inductive CAct where
  | perrorSocket
  | perrorConnect
  | getattr
  | setattrRaw
  | setattrRestore
  | relayRun (result : RState × Outcome)
  | shutdownCall (how : Nat)
  | closeSock
  | newlineOut
deriving DecidableEq, Repr

structure ClientEnv where
  socket_ok : Bool
  connect_ok : Bool
  local_echo : Bool
  rounds : List Round
  termBytes : List Nat
  sockBytes : List Nat
deriving DecidableEq, Repr

/-- `console_proxy` (shell-tunnel.c:286-294): capture the console state and
switch to raw (`setup_console(CONS_CONFIG, ...)` = `tcgetattr` followed by
`tcsetattr`), run `byte_interchange(STDIN_FILENO, STDOUT_FILENO, sockfd,
sockfd)`, then restore (`setup_console(CONS_RESTORE, ...)`), on every
return path of the relay. -/
def console_proxy (env : ClientEnv) : List CAct :=
  [CAct.getattr, CAct.setattrRaw,
   CAct.relayRun (byte_interchange env.rounds
     ⟨env.termBytes, env.sockBytes, [], [], none⟩),
   CAct.setattrRestore]

/-- `client_mode` (shell-tunnel.c:231-261): create the socket (on failure
jump to `out_err_1`, printing only the newline), connect (on failure jump
to `out_err_2`: close the socket, newline), otherwise run `console_proxy`,
then `shutdown(sockfd, SHUT_RDWR)`, close, newline. -/
def client_mode (env : ClientEnv) : List CAct :=
  if env.socket_ok = false then [CAct.perrorSocket, CAct.newlineOut]
  else if env.connect_ok = false then
    [CAct.perrorConnect, CAct.closeSock, CAct.newlineOut]
  else
    console_proxy env ++ [CAct.shutdownCall SHUT_RDWR, CAct.closeSock, CAct.newlineOut]

/-! ## Session spawner (`spawn_shell`, shell-tunnel.c:197-226)

Modelled from the parent worker's point of view: `openpty`, `fork`, and in
the parent branch close the slave, run `byte_interchange(sockfd, sockfd,
mst, mst)` (side `a` = channel connection, side `b` = pty master), and
close the master.  The child branch runs `shell(slv)` in a separate
process and exchanges no further state with the worker. -/

structure SessionEnv where
  openpty_ok : Bool
  fork_ok : Bool
  rounds : List Round
  sockBytes : List Nat
  ptyBytes : List Nat
deriving DecidableEq, Repr

inductive PAct where
  | perrorPty
  | perrorForkSess
  | closeSlave
  | relayRun (result : RState × Outcome)
  | closeMaster
deriving DecidableEq, Repr

def spawn_shell (e : SessionEnv) : List PAct :=
  if e.openpty_ok = false then [PAct.perrorPty]
  else if e.fork_ok = false then [PAct.perrorForkSess]
  else
    [PAct.closeSlave,
     PAct.relayRun (byte_interchange e.rounds
       ⟨e.sockBytes, e.ptyBytes, [], [], none⟩),
     PAct.closeMaster]

/-! ## Connection acceptor (`server_mode`, shell-tunnel.c:96-168)

The environment records the outcome of `socket`/`bind`/`listen`/`chmod`
and then, per loop iteration, the outcome of `accept` and of the `fork`
for an accepted connection.  The trace is that of the listening (parent)
process; a successful fork is recorded as spawning an isolated worker
carrying that connection's session environment. -/

inductive AcceptRes where
  | acceptFail
  | conn (fork_ok : Bool) (sess : SessionEnv)
deriving DecidableEq, Repr

inductive SAct where
  | perrorSocket
  | perrorBind
  | perrorListen
  | perrorChmod
  | perrorAccept
  | perrorFork
  | spawnWorker (sess : SessionEnv)
  | closeConn
  | closeListener
  | unlinkPath
deriving DecidableEq, Repr

/-- The accept loop (shell-tunnel.c:133-160): `accept` failure goes to
`out_err_1` (close the listening socket, unlink the path); `fork` failure
goes to `out_err_2` then `out_err_1`; on success the parent closes the
accepted descriptor and continues while the child worker serves the
session.  An exhausted event list models the loop still blocked in
`accept`. -/
def acceptLoop : List AcceptRes → List SAct
  | [] => []
  | AcceptRes.acceptFail :: _ =>
    [SAct.perrorAccept, SAct.closeListener, SAct.unlinkPath]
  | AcceptRes.conn false _ :: _ =>
    [SAct.perrorFork, SAct.closeConn, SAct.closeListener, SAct.unlinkPath]
  | AcceptRes.conn true sess :: rest =>
    SAct.spawnWorker sess :: SAct.closeConn :: acceptLoop rest

structure ServerEnv where
  socket_ok : Bool
  bind_ok : Bool
  listen_ok : Bool
  chmod_ok : Bool
  accepts : List AcceptRes
deriving DecidableEq, Repr

/-- `server_mode` (shell-tunnel.c:96-168): socket creation failure returns
with no cleanup; `bind`/`listen`/`chmod` failures all go to `out_err_1`
(close the listening socket, unlink `SERVER_PATH`); otherwise the accept
loop runs. -/
def server_mode (env : ServerEnv) : List SAct :=
  if env.socket_ok = false then [SAct.perrorSocket]
  else if env.bind_ok = false then
    [SAct.perrorBind, SAct.closeListener, SAct.unlinkPath]
  else if env.listen_ok = false then
    [SAct.perrorListen, SAct.closeListener, SAct.unlinkPath]
  else if env.chmod_ok = false then
    [SAct.perrorChmod, SAct.closeListener, SAct.unlinkPath]
  else acceptLoop env.accepts

/-! ## Command-line parsing (`main`, shell-tunnel.c:48-83) -/

inductive Mode where
  | undef
  | daemon
  | client
deriving DecidableEq, Repr

/-- One iteration of the argument scan (shell-tunnel.c:55-62). -/
def parseStep : Mode × Bool → String → Mode × Bool
  | (m, e), a =>
    if a = "--daemon" then (Mode.daemon, e)
    else if a = "--client" then (Mode.client, e)
    else if a = "--echo" then (m, true)
    else (m, e)

/-- The whole argument scan: fold `parseStep` over `argv[1..]`, starting
from `mode = MODE_UNDEF`, `local_echo = false`. -/
def parseArgs (args : List String) : Mode × Bool :=
  args.foldl parseStep (Mode.undef, false)

/-- Which top-level branch `main` takes (shell-tunnel.c:64-80). -/
inductive MainAct where
  | usage
  | daemonRun
  | clientRun (local_echo : Bool)
deriving DecidableEq, Repr

def mainDispatch (args : List String) : MainAct :=
  match parseArgs args with
  | (Mode.daemon, _) => MainAct.daemonRun
  | (Mode.client, e) => MainAct.clientRun e
  | (Mode.undef, _) => MainAct.usage

/-- An argument the scan recognizes as a mode selector. -/
def isModeFlag (s : String) : Bool :=
  s == "--daemon" || s == "--client"

/-- The mode selected by one mode flag. -/
def flagMode (s : String) : Mode :=
  if s = "--daemon" then Mode.daemon else Mode.client

lemma stepA_noErr_inv (r : Round) (s s1 : RState) (o1 : Option Outcome)
    (h1 : stepA r s = (s1, o1)) (hra : r.rderr_a = false) (hwb : 1 ≤ r.wres_b) :
    s1.outB ++ s1.sa = s.outB ++ s.sa ∧ s1.outA = s.outA ∧ s1.sb = s.sb := by
  unfold stepA at h1
  split at h1
  · rw [hra] at h1
    simp only [Bool.false_eq_true, if_false] at h1
    rcases hsa : s.sa with _ | ⟨c, rest⟩
    · rw [hsa] at h1; cases h1; simp [hsa]
    · rw [hsa] at h1
      simp only [if_neg (not_lt.mpr hwb)] at h1
      cases h1; simp [hsa]
  · cases h1; simp

lemma stepB_noErr_inv (r : Round) (s s1 : RState) (o1 : Option Outcome)
    (h1 : stepB r s = (s1, o1)) (hrb : r.rderr_b = false) (hwa : 1 ≤ r.wres_a) :
    s1.outA ++ s1.sb = s.outA ++ s.sb ∧ s1.outB = s.outB ∧ s1.sa = s.sa := by
  unfold stepB at h1
  split at h1
  · rw [hrb] at h1
    simp only [Bool.false_eq_true, if_false] at h1
    rcases hsb : s.sb with _ | ⟨c, rest⟩
    · rw [hsb] at h1; cases h1; simp [hsb]
    · rw [hsb] at h1
      simp only [if_neg (not_lt.mpr hwa)] at h1
      cases h1; simp [hsb]
  · cases h1; simp

/-- Per-direction FIFO invariant of a whole error-free run. -/
lemma byte_interchange_noErr_inv (rounds : List Round) (s : RState)
    (h : ∀ r ∈ rounds, r.noErr) :
    (byte_interchange rounds s).1.outB ++ (byte_interchange rounds s).1.sa
      = s.outB ++ s.sa ∧
    (byte_interchange rounds s).1.outA ++ (byte_interchange rounds s).1.sb
      = s.outA ++ s.sb := by
  induction rounds generalizing s with
  | nil => simp [byte_interchange]
  | cons r rest ih =>
    obtain ⟨hra, hrb, hwa, hwb⟩ := h r (List.mem_cons_self r rest)
    have hrest : ∀ x ∈ rest, x.noErr := fun x hx => h x (List.mem_cons_of_mem r hx)
    rcases h1 : stepA r s with ⟨s1, o1⟩
    have hA := stepA_noErr_inv r s s1 o1 h1 hra hwb
    cases o1 with
    | some o =>
      simp only [byte_interchange, h1]
      exact ⟨hA.1, by rw [hA.2.1, hA.2.2]⟩
    | none =>
      rcases h2 : stepB r s1 with ⟨s2, o2⟩
      have hB := stepB_noErr_inv r s1 s2 o2 h2 hrb hwa
      cases o2 with
      | some o =>
        simp only [byte_interchange, h1, h2]
        exact ⟨by rw [hB.2.1, hB.2.2, hA.1], by rw [hB.1, hA.2.1, hA.2.2]⟩
      | none =>
        have hrec := ih s2 hrest
        simp only [byte_interchange, h1, h2]
        exact ⟨by rw [hrec.1, hB.2.1, hB.2.2, hA.1],
               by rw [hrec.2, hB.1, hA.2.1, hA.2.2]⟩

/-- C1: in any relay run in which no read or write error occurs, the bytes
delivered to each sink are exactly the bytes consumed from the paired
source, in production order — a prefix of that direction's stream with no
reordering, no loss and no duplication; nothing ties the two directions to
each other. -/
theorem relay_fifo_per_direction (rounds : List Round) (sa sb : List Nat)
    (h : ∀ r ∈ rounds, r.noErr) :
    (byte_interchange rounds ⟨sa, sb, [], [], none⟩).1.outB
        ++ (byte_interchange rounds ⟨sa, sb, [], [], none⟩).1.sa = sa ∧
    (byte_interchange rounds ⟨sa, sb, [], [], none⟩).1.outA
        ++ (byte_interchange rounds ⟨sa, sb, [], [], none⟩).1.sb = sb := by
  simpa using byte_interchange_noErr_inv rounds ⟨sa, sb, [], [], none⟩ h

theorem relay_fifo_per_direction_witness :
    (byte_interchange [⟨true, true, false, false, 1, 1⟩]
        ⟨[7, 8], [4], [], [], none⟩).1.outB
      ++ (byte_interchange [⟨true, true, false, false, 1, 1⟩]
        ⟨[7, 8], [4], [], [], none⟩).1.sa = [7, 8] ∧
    (byte_interchange [⟨true, true, false, false, 1, 1⟩]
        ⟨[7, 8], [4], [], [], none⟩).1.outA
      ++ (byte_interchange [⟨true, true, false, false, 1, 1⟩]
        ⟨[7, 8], [4], [], [], none⟩).1.sb = [4] :=
  relay_fifo_per_direction [⟨true, true, false, false, 1, 1⟩] [7, 8] [4]
    (by decide)

/-- C2: once any terminating condition fires — a zero-length read on either
source, a read error on either source, or a write error on either sink —
the whole relay stops: feeding it any further readiness events changes
neither the state nor the outcome, so no surviving direction keeps being
relayed. -/
theorem relay_terminates_entirely (rounds extra : List Round) (s s1 : RState)
    (o : Outcome) (h : byte_interchange rounds s = (s1, o))
    (hno : o ≠ Outcome.running) :
    byte_interchange (rounds ++ extra) s = (s1, o) := by
  induction rounds generalizing s with
  | nil =>
    simp only [byte_interchange] at h
    cases h
    exact absurd rfl hno
  | cons r rest ih =>
    simp only [List.cons_append]
    rcases h1 : stepA r s with ⟨t1, o1⟩
    simp only [byte_interchange, h1] at h ⊢
    cases o1 with
    | some oo => exact h
    | none =>
      rcases h2 : stepB r t1 with ⟨t2, o2⟩
      simp only [h2] at h ⊢
      cases o2 with
      | some oo => exact h
      | none => exact ih t2 h

theorem relay_terminates_entirely_witness :
    byte_interchange
        ([⟨true, false, false, false, 1, 1⟩] ++ [⟨false, true, false, false, 1, 1⟩])
        ⟨[], [4], [], [], none⟩
      = (⟨[], [4], [], [], some 0⟩, Outcome.eofA) :=
  relay_terminates_entirely [⟨true, false, false, false, 1, 1⟩]
    [⟨false, true, false, false, 1, 1⟩] ⟨[], [4], [], [], none⟩
    ⟨[], [4], [], [], some 0⟩ Outcome.eofA (by decide) (by decide)

lemma stepA_some_outcome (r : Round) (s s1 : RState) (o : Outcome)
    (h : stepA r s = (s1, some o)) :
    (o = Outcome.eofA ∧ s1.len = some 0) ∨
    (o = Outcome.errReadA ∧ s1.len = some (-1)) ∨
    (∃ w, o = Outcome.errWriteB w ∧ s1.len = some w ∧ w < 1) := by
  cases hready : r.ready_a with
  | false => simp [stepA, hready] at h
  | true =>
    cases hrd : r.rderr_a with
    | true =>
      simp [stepA, hready, hrd] at h
      obtain ⟨h1, h2⟩ := h
      subst h2; subst h1
      exact Or.inr (Or.inl ⟨rfl, rfl⟩)
    | false =>
      rcases hsa : s.sa with _ | ⟨c, rest⟩
      · simp [stepA, hready, hrd, hsa] at h
        obtain ⟨h1, h2⟩ := h
        subst h2; subst h1
        exact Or.inl ⟨rfl, rfl⟩
      · by_cases hw : r.wres_b < 1
        · simp [stepA, hready, hrd, hsa, hw] at h
          obtain ⟨h1, h2⟩ := h
          subst h2; subst h1
          exact Or.inr (Or.inr ⟨r.wres_b, rfl, rfl, hw⟩)
        · simp [stepA, hready, hrd, hsa, hw] at h

lemma stepB_some_outcome (r : Round) (s s1 : RState) (o : Outcome)
    (h : stepB r s = (s1, some o)) :
    (o = Outcome.eofB ∧ s1.len = some 0) ∨
    (o = Outcome.errReadB ∧ s1.len = some (-1)) ∨
    (∃ w, o = Outcome.errWriteA w ∧ s1.len = some w ∧ w < 1) := by
  cases hready : r.ready_b with
  | false => simp [stepB, hready] at h
  | true =>
    cases hrd : r.rderr_b with
    | true =>
      simp [stepB, hready, hrd] at h
      obtain ⟨h1, h2⟩ := h
      subst h2; subst h1
      exact Or.inr (Or.inl ⟨rfl, rfl⟩)
    | false =>
      rcases hsb : s.sb with _ | ⟨c, rest⟩
      · simp [stepB, hready, hrd, hsb] at h
        obtain ⟨h1, h2⟩ := h
        subst h2; subst h1
        exact Or.inl ⟨rfl, rfl⟩
      · by_cases hw : r.wres_a < 1
        · simp [stepB, hready, hrd, hsb, hw] at h
          obtain ⟨h1, h2⟩ := h
          subst h2; subst h1
          exact Or.inr (Or.inr ⟨r.wres_a, rfl, rfl, hw⟩)
        · simp [stepB, hready, hrd, hsb, hw] at h

/-- C5 (amended): the relay's return value (`len`) distinguishes
end-of-stream (0) from a read error (-1), and a write error returns the
failed write's return value, which is less than 1 — but the return value
does not identify on which of the two sides the terminating event
occurred; side information is only emitted as diagnostics. -/
theorem relay_return_code (rounds : List Round) (s s1 : RState) (o : Outcome)
    (h : byte_interchange rounds s = (s1, o)) :
    ((o = Outcome.eofA ∨ o = Outcome.eofB) → s1.len = some 0) ∧
    ((o = Outcome.errReadA ∨ o = Outcome.errReadB) → s1.len = some (-1)) ∧
    (∀ w, (o = Outcome.errWriteA w ∨ o = Outcome.errWriteB w) →
      s1.len = some w ∧ w < 1) := by
  induction rounds generalizing s with
  | nil =>
    simp only [byte_interchange] at h
    cases h
    refine ⟨fun hh => ?_, fun hh => ?_, fun w hh => ?_⟩ <;>
      rcases hh with hh | hh <;> simp at hh
  | cons r rest ih =>
    rcases h1 : stepA r s with ⟨t1, o1⟩
    simp only [byte_interchange, h1] at h
    cases o1 with
    | some oo =>
      cases h
      rcases stepA_some_outcome r s s1 o h1 with ⟨ho, hl⟩ | ⟨ho, hl⟩ | ⟨w, ho, hl, hw⟩ <;>
        subst ho <;>
        refine ⟨fun hh => ?_, fun hh => ?_, fun v hh => ?_⟩ <;>
        rcases hh with hh | hh <;> first
          | (cases hh; simp [hl]; try exact hw)
          | simp at hh
    | none =>
      rcases h2 : stepB r t1 with ⟨t2, o2⟩
      simp only [h2] at h
      cases o2 with
      | some oo =>
        cases h
        rcases stepB_some_outcome r t1 s1 o h2 with ⟨ho, hl⟩ | ⟨ho, hl⟩ | ⟨w, ho, hl, hw⟩ <;>
          subst ho <;>
          refine ⟨fun hh => ?_, fun hh => ?_, fun v hh => ?_⟩ <;>
          rcases hh with hh | hh <;> first
            | (cases hh; simp [hl]; try exact hw)
            | simp at hh
      | none => exact ih t2 h

theorem relay_return_code_witness :
    (⟨[], [4], [], [], some 0⟩ : RState).len = some 0 :=
  (relay_return_code [⟨true, false, false, false, 1, 1⟩]
      ⟨[], [4], [], [], none⟩ ⟨[], [4], [], [], some 0⟩ Outcome.eofA
      (by decide)).1 (Or.inl rfl)

/-- C5 counterexample: one run ends with end-of-stream on side `a`, another
with end-of-stream on side `b`, and the function's return value (`len`) is
the same 0 in both — the value handed to the caller does not identify on
which side the terminating event occurred. -/
theorem relay_return_code_cex :
    (byte_interchange [⟨true, false, false, false, 1, 1⟩]
        ⟨[], [9], [], [], none⟩).2 = Outcome.eofA ∧
    (byte_interchange [⟨false, true, false, false, 1, 1⟩]
        ⟨[9], [], [], [], none⟩).2 = Outcome.eofB ∧
    (byte_interchange [⟨true, false, false, false, 1, 1⟩]
        ⟨[], [9], [], [], none⟩).1.len
      = (byte_interchange [⟨false, true, false, false, 1, 1⟩]
        ⟨[9], [], [], [], none⟩).1.len := by
  decide

/-- C3: in every client invocation the terminal snapshot is captured, raw
mode applied, and the snapshot restored each exactly once whenever the
proxy session runs — whatever the relay does, including every error
outcome — and on the paths where socket creation or the connect fails, the
terminal state is never captured or altered at all. -/
theorem console_snapshot_restored_once (env : ClientEnv) :
    (client_mode env).count CAct.getattr
      = (if env.socket_ok && env.connect_ok then 1 else 0) ∧
    (client_mode env).count CAct.setattrRaw
      = (if env.socket_ok && env.connect_ok then 1 else 0) ∧
    (client_mode env).count CAct.setattrRestore
      = (if env.socket_ok && env.connect_ok then 1 else 0) := by
  cases hs : env.socket_ok <;> cases hc : env.connect_ok <;>
    simp [client_mode, console_proxy, hs, hc, List.count_cons, List.count_append]

/-- C4 counterexample: in a successful session the client's shutdown call
uses SHUT_RDWR — both halves — not SHUT_WR, so the read half is not left
open by the shutdown. -/
theorem client_shutdown_cex :
    (client_mode ⟨true, true, false, [], [], []⟩).contains
        (CAct.shutdownCall SHUT_RDWR) = true ∧
    (client_mode ⟨true, true, false, [], [], []⟩).contains
        (CAct.shutdownCall SHUT_WR) = false := by
  decide

/-- C4 (amended): after the proxy's relay terminates, the client performs
an orderly shutdown of both halves of the channel connection (SHUT_RDWR)
and only then closes the descriptor. -/
theorem client_shutdown_then_close (env : ClientEnv)
    (hs : env.socket_ok = true) (hc : env.connect_ok = true) :
    client_mode env
      = console_proxy env
        ++ [CAct.shutdownCall SHUT_RDWR, CAct.closeSock, CAct.newlineOut] := by
  simp [client_mode, hs, hc]

theorem client_shutdown_then_close_witness :
    client_mode ⟨true, true, false, [], [], []⟩
      = console_proxy ⟨true, true, false, [], [], []⟩
        ++ [CAct.shutdownCall SHUT_RDWR, CAct.closeSock, CAct.newlineOut] :=
  client_shutdown_then_close ⟨true, true, false, [], [], []⟩ rfl rfl

/-- C6: a pseudo-terminal allocation failure aborts only that session —
the worker reports the error and ends without running any relay — while
the accept loop handles the remaining connections exactly as it would
have without that session. -/
theorem pty_failure_not_fatal (sess : SessionEnv) (rest : List AcceptRes)
    (hp : sess.openpty_ok = false) :
    spawn_shell sess = [PAct.perrorPty] ∧
    acceptLoop (AcceptRes.conn true sess :: rest)
      = SAct.spawnWorker sess :: SAct.closeConn :: acceptLoop rest := by
  exact ⟨by simp [spawn_shell, hp], rfl⟩

theorem pty_failure_not_fatal_witness :
    spawn_shell ⟨false, true, [], [], []⟩ = [PAct.perrorPty] ∧
    acceptLoop (AcceptRes.conn true ⟨false, true, [], [], []⟩ :: [AcceptRes.acceptFail])
      = SAct.spawnWorker ⟨false, true, [], [], []⟩ :: SAct.closeConn
          :: acceptLoop [AcceptRes.acceptFail] :=
  pty_failure_not_fatal ⟨false, true, [], [], []⟩ [AcceptRes.acceptFail] rfl

/-- C7: a failed accept is fatal to the acceptor: after any run of
successfully forked connections, the loop exits without examining later
events, closes the listening socket, and unlinks the rendezvous path. -/
theorem accept_failure_fatal (pre rest rest' : List AcceptRes)
    (h : ∀ x ∈ pre, ∃ s, x = AcceptRes.conn true s) :
    acceptLoop (pre ++ AcceptRes.acceptFail :: rest)
      = acceptLoop (pre ++ AcceptRes.acceptFail :: rest') ∧
    [SAct.perrorAccept, SAct.closeListener, SAct.unlinkPath]
      <:+ acceptLoop (pre ++ AcceptRes.acceptFail :: rest) := by
  induction pre with
  | nil => exact ⟨rfl, List.suffix_rfl⟩
  | cons x pre ih =>
    obtain ⟨s, hx⟩ := h x (List.mem_cons_self x pre)
    subst hx
    have ih' := ih (fun y hy => h y (List.mem_cons_of_mem _ hy))
    simp only [List.cons_append, acceptLoop]
    refine ⟨congrArg (fun t => SAct.spawnWorker s :: SAct.closeConn :: t) ih'.1, ?_⟩
    exact (ih'.2.trans (List.suffix_cons _ _)).trans (List.suffix_cons _ _)

theorem accept_failure_fatal_witness :
    acceptLoop ([AcceptRes.conn true ⟨true, true, [], [], []⟩]
        ++ AcceptRes.acceptFail :: [AcceptRes.acceptFail])
      = acceptLoop ([AcceptRes.conn true ⟨true, true, [], [], []⟩]
        ++ AcceptRes.acceptFail :: []) ∧
    [SAct.perrorAccept, SAct.closeListener, SAct.unlinkPath]
      <:+ acceptLoop ([AcceptRes.conn true ⟨true, true, [], [], []⟩]
        ++ AcceptRes.acceptFail :: [AcceptRes.acceptFail]) :=
  accept_failure_fatal [AcceptRes.conn true ⟨true, true, [], [], []⟩]
    [AcceptRes.acceptFail] []
    (fun _ hx => ⟨⟨true, true, [], [], []⟩, List.mem_singleton.mp hx⟩)

lemma acceptLoop_cleanup (accepts : List AcceptRes)
    (h : AcceptRes.acceptFail ∈ accepts) :
    [SAct.closeListener, SAct.unlinkPath] <:+ acceptLoop accepts := by
  induction accepts with
  | nil => cases h
  | cons x rest ih =>
    cases x with
    | acceptFail => exact ⟨[SAct.perrorAccept], rfl⟩
    | conn fok sess =>
      cases fok with
      | false => exact ⟨[SAct.perrorFork, SAct.closeConn], rfl⟩
      | true =>
        have hm : AcceptRes.acceptFail ∈ rest := by
          rcases List.mem_cons.mp h with h1 | h1
          · simp at h1
          · exact h1
        exact ((ih hm).trans (List.suffix_cons _ _)).trans (List.suffix_cons _ _)

/-- C9: on every post-socket-creation setup failure — bind, listen,
permission change, or a failed accept — `server_mode` closes the listening
socket and unconditionally unlinks the rendezvous path; in particular a
bind failure (e.g. a live instance already owns the path) still removes
the filesystem entry. -/
theorem server_cleanup_on_failure (env : ServerEnv)
    (hs : env.socket_ok = true)
    (h : env.bind_ok = false ∨ env.listen_ok = false ∨ env.chmod_ok = false ∨
         AcceptRes.acceptFail ∈ env.accepts) :
    [SAct.closeListener, SAct.unlinkPath] <:+ server_mode env := by
  have hbody : server_mode env
      = (if env.bind_ok = false then
          [SAct.perrorBind, SAct.closeListener, SAct.unlinkPath]
        else if env.listen_ok = false then
          [SAct.perrorListen, SAct.closeListener, SAct.unlinkPath]
        else if env.chmod_ok = false then
          [SAct.perrorChmod, SAct.closeListener, SAct.unlinkPath]
        else acceptLoop env.accepts) := by
    simp [server_mode, hs]
  rw [hbody]
  split
  · exact ⟨[SAct.perrorBind], rfl⟩
  · split
    · exact ⟨[SAct.perrorListen], rfl⟩
    · split
      · exact ⟨[SAct.perrorChmod], rfl⟩
      · rename_i h1 h2 h3
        rcases h with hx | hx | hx | hx
        · exact absurd hx h1
        · exact absurd hx h2
        · exact absurd hx h3
        · exact acceptLoop_cleanup env.accepts hx

theorem server_cleanup_on_failure_witness :
    [SAct.closeListener, SAct.unlinkPath]
      <:+ server_mode ⟨true, false, true, true, []⟩ :=
  server_cleanup_on_failure ⟨true, false, true, true, []⟩ rfl (Or.inl rfl)

lemma parseStep_fst (p : Mode × Bool) (a : String) :
    (parseStep p a).1 = (if a = "--daemon" then Mode.daemon
      else if a = "--client" then Mode.client else p.1) := by
  rcases p with ⟨m, e⟩
  by_cases h1 : a = "--daemon" <;> by_cases h2 : a = "--client" <;>
    simp [parseStep, h1, h2]
  by_cases h3 : a = "--echo" <;> simp [h3]

lemma parseStep_snd (p : Mode × Bool) (a : String) :
    (parseStep p a).2 = (p.2 || (a == "--echo")) := by
  rcases p with ⟨m, e⟩
  by_cases h1 : a = "--daemon"
  · simp [parseStep, h1]
  · by_cases h2 : a = "--client"
    · simp [parseStep, h1, h2]
    · by_cases h3 : a = "--echo" <;> simp [parseStep, h1, h2, h3]

lemma parse_echo_aux (args : List String) (p : Mode × Bool) :
    (args.foldl parseStep p).2 = (p.2 || args.contains "--echo") := by
  induction args generalizing p with
  | nil => simp [List.contains_nil]
  | cons a rest ih =>
    rw [List.foldl_cons, ih (parseStep p a), parseStep_snd]
    simp [List.contains_cons, Bool.or_assoc, Bool.beq_eq_decide_eq, eq_comm]

lemma parse_mode_aux (args : List String) (p : Mode × Bool) :
    (args.foldl parseStep p).1
      = (args.reverse.find? isModeFlag).elim p.1 flagMode := by
  induction args generalizing p with
  | nil => simp
  | cons a rest ih =>
    rw [List.foldl_cons, ih (parseStep p a), List.reverse_cons, List.find?_append]
    cases hf : rest.reverse.find? isModeFlag with
    | some x => simp
    | none =>
      by_cases hm : isModeFlag a = true
      · simp only [Option.none_or]
        rw [List.find?_cons_of_pos _ hm, parseStep_fst]
        rcases (by simpa [isModeFlag] using hm : a = "--daemon" ∨ a = "--client")
            with h1 | h1 <;>
          subst h1 <;> simp [flagMode]
      · simp only [Option.none_or]
        rw [List.find?_cons_of_neg _ hm, List.find?_nil, parseStep_fst]
        have h1 : a ≠ "--daemon" := by
          intro hh; subst hh; exact hm (by decide)
        have h2 : a ≠ "--client" := by
          intro hh; subst hh; exact hm (by decide)
        simp [h1, h2]

lemma parseStep_junk (p : Mode × Bool) (junk : String)
    (h1 : junk ≠ "--daemon") (h2 : junk ≠ "--client") (h3 : junk ≠ "--echo") :
    parseStep p junk = p := by
  rcases p with ⟨m, e⟩
  simp [parseStep, h1, h2, h3]

/-- C10: the argument scan visits every argument: the last mode flag in
the list decides the selected mode; an argument that is none of the three
recognized flags leaves the parse entirely unchanged; and the usage
message is triggered exactly when no mode flag occurs anywhere. -/
theorem argv_scan (args l1 l2 : List String) (junk : String)
    (hj : junk ≠ "--daemon" ∧ junk ≠ "--client" ∧ junk ≠ "--echo") :
    (parseArgs args).1 = (args.reverse.find? isModeFlag).elim Mode.undef flagMode ∧
    parseArgs (l1 ++ junk :: l2) = parseArgs (l1 ++ l2) ∧
    (mainDispatch args = MainAct.usage ↔ args.reverse.find? isModeFlag = none) := by
  have hmode : (parseArgs args).1
      = (args.reverse.find? isModeFlag).elim Mode.undef flagMode :=
    parse_mode_aux args (Mode.undef, false)
  refine ⟨hmode, ?_, ?_⟩
  · unfold parseArgs
    rw [List.foldl_append, List.foldl_append, List.foldl_cons,
        parseStep_junk _ junk hj.1 hj.2.1 hj.2.2]
  · unfold mainDispatch
    rcases hp : parseArgs args with ⟨m, e⟩
    rw [hp] at hmode
    simp only at hmode
    cases hf : args.reverse.find? isModeFlag with
    | none =>
      rw [hf] at hmode
      simp only [Option.elim_none] at hmode
      subst hmode
      simp
    | some x =>
      rw [hf] at hmode
      simp only [Option.elim_some] at hmode
      subst hmode
      constructor
      · intro hu
        unfold flagMode at hu
        by_cases hx : x = "--daemon" <;> simp [hx] at hu
      · intro hn
        simp at hn

theorem argv_scan_witness :
    (parseArgs ["--client", "--daemon"]).1
        = ((["--client", "--daemon"].reverse.find? isModeFlag).elim
            Mode.undef flagMode) ∧
    parseArgs (["--daemon"] ++ "--verbose" :: ["--client"])
        = parseArgs (["--daemon"] ++ ["--client"]) ∧
    (mainDispatch ["--client", "--daemon"] = MainAct.usage
        ↔ ["--client", "--daemon"].reverse.find? isModeFlag = none) :=
  argv_scan ["--client", "--daemon"] ["--daemon"] ["--client"] "--verbose"
    ⟨by decide, by decide, by decide⟩

/-- C8: raw-mode setup always clears the canonical-input flag ICANON
(bit 1 of `c_lflag`); it clears the local-echo flag ECHO (bit 3) exactly
when `--echo` was absent from the command line, and leaves ECHO at its
captured value when `--echo` was given. -/
theorem raw_mode_flags (args : List String) (lflag : Nat) :
    (setup_console_config lflag (parseArgs args).2).testBit 1 = false ∧
    (setup_console_config lflag (parseArgs args).2).testBit 3
      = ((parseArgs args).2 && lflag.testBit 3) ∧
    (parseArgs args).2 = args.contains "--echo" := by
  have hmask : ∀ e : Bool,
      (0xFFFFFFFF ^^^ (ICANON ||| (if e then 0 else ECHO))).testBit 1 = false ∧
      (0xFFFFFFFF ^^^ (ICANON ||| (if e then 0 else ECHO))).testBit 3 = e := by
    decide
  refine ⟨?_, ?_, ?_⟩
  · rw [setup_console_config, Nat.testBit_land, (hmask _).1, Bool.and_false]
  · rw [setup_console_config, Nat.testBit_land, (hmask _).2, Bool.and_comm]
  · simpa using parse_echo_aux args (Mode.undef, false)

end ShellTunnel
